import Mathlib

/-!
Verification of the Codex CLI language-model provider
(`crates/language_models/src/provider/codex_cli.rs`).

The Rust source is shallowly embedded below: pure computations become Lean
functions, calls into external libraries (the JSON parser, the TOML value
renderer, the file system, process spawning) become explicit parameters or
constructor-tagged outcomes, and the lazy event stream becomes a function
from the finite list of poll results of the child's stdout reader to the
finite list of emitted events.
-/

namespace CodexCli

/-- A JSON value, as produced by the external JSON parser (`serde_json::Value`).
Objects keep their fields as an ordered association list; `jsonGet` looks a key
up by its first occurrence, matching map lookup after duplicate-key collapse. -/
inductive Json where
  | null : Json
  | bool (b : Bool) : Json
  | num (n : Int) : Json
  | str (s : String) : Json
  | arr (xs : List Json) : Json
  | obj (fields : List (String × Json)) : Json


/-- `Value::get(key)`: field lookup on an object, `None` on any other shape. -/
def jsonGet (v : Json) (key : String) : Option Json :=
  match v with
  | .obj fields => (fields.find? (fun p => p.1 = key)).map (·.2)
  | _ => none

/-- `Value::as_str()`. -/
def asStr : Json → Option String
  | .str s => some s
  | _ => none

/-- `Value::as_bool()`. -/
def asBool : Json → Option Bool
  | .bool b => some b
  | _ => none

/-- `LanguageModelToolUse` (fields used by this provider). -/
structure ToolUse where
  id : String
  name : String
  raw_input : String
  input : Json
  is_input_complete : Bool


/-- `StopReason` (only `EndTurn` is produced by this provider). -/
inductive StopReason where
  | endTurn : StopReason


/-- `LanguageModelCompletionEvent` (the variants this provider produces). -/
inductive CompletionEvent where
  | text (s : String) : CompletionEvent
  | toolUse (t : ToolUse) : CompletionEvent
  | stop (r : StopReason) : CompletionEvent


/-- The first stage of `parse_line`: the tool-use branch
(codex_cli.rs:331-358). Returns the `ToolUse` event when the record has a
`type` of `"tool"` or `"tool_use"` together with a string id, a string name
(field `name`, falling back to field `tool_name` only when `name` is absent),
and an `input` payload; `none` means the code falls through to the text
rules. -/
def toolUseEvent (value : Json) : Option CompletionEvent :=
  match (jsonGet value "type").bind asStr with
  | some t =>
    if t = "tool" ∨ t = "tool_use" then
      match (jsonGet value "id").bind asStr,
            ((jsonGet value "name").orElse (fun _ => jsonGet value "tool_name")).bind asStr,
            jsonGet value "input" with
      | some id, some nm, some input =>
        some (.toolUse
          { id := id
            name := nm
            raw_input := ((jsonGet value "raw_input").bind asStr).getD ""
            input := input
            is_input_complete := ((jsonGet value "is_input_complete").bind asBool).getD true })
      | _, _, _ => none
    else none
  | none => none

/-- `parse_line` (codex_cli.rs:329-368). The external JSON parse of the line is
passed in as `parsed` (`none` when `serde_json::from_str` fails). -/
def parse_line (line : String) (parsed : Option Json) : CompletionEvent :=
  match parsed with
  | some value =>
    match toolUseEvent value with
    | some e => e
    | none =>
      match (jsonGet value "content").bind asStr with
      | some text => .text text
      | none =>
        match (jsonGet value "text").bind asStr with
        | some text => .text text
        | none => .text line
  | none => .text line

/-- `language_model::Role`. The exhaustive `match` at codex_cli.rs:282-286 has
exactly the arms `System`, `User`, `Assistant` and no wildcard, so the enum has
exactly these three variants. -/
inductive Role where
  | system : Role
  | user : Role
  | assistant : Role
deriving DecidableEq, Repr

/-- A request message; `contents` is the flattened textual content returned by
`Message::string_contents()`. -/
structure Message where
  role : Role
  contents : String
deriving DecidableEq, Repr

/-- `LanguageModelRequest` (the field this provider reads). -/
structure LanguageModelRequest where
  messages : List Message
deriving DecidableEq, Repr

/-- The role marker chosen at codex_cli.rs:282-286. -/
def roleTag : Role → String
  | .system => "system:"
  | .user => "user:"
  | .assistant => "assistant:"

/-- The serialized prompt written to the child's stdin (codex_cli.rs:278-289):
`request.messages.iter().map(|m| format!("{} {}\n", role, m.string_contents())).collect::<String>()`. -/
def serializePrompt (messages : List Message) : String :=
  String.join (messages.map (fun m => roleTag m.role ++ " " ++ m.contents ++ "\n"))

/-- `AuthenticateError` (the variants this provider produces). -/
inductive AuthError where
  | credentialsNotFound : AuthError
  | otherAuthError : AuthError
deriving DecidableEq, Repr

/-- `State`: the credential store (codex_cli.rs:31-34). -/
structure State where
  api_key : Option String
deriving DecidableEq, Repr

/-- `State::is_authenticated` (codex_cli.rs:37-39). -/
def State.is_authenticated (s : State) : Bool :=
  s.api_key.isSome

/-- Outcome of `smol::fs::read_to_string(<home>/.codex/config.toml)`:
the file is absent (`ErrorKind::NotFound`), some other I/O error occurred,
or the file's contents were read. -/
inductive ReadOutcome where
  | notFound : ReadOutcome
  | ioError : ReadOutcome
  | contents (s : String) : ReadOutcome
deriving DecidableEq, Repr

/-- The `CodexConfig` struct deserialized from the configuration file
(codex_cli.rs:59-62): an optional `api_key` field. -/
structure CodexConfig where
  api_key : Option String
deriving DecidableEq, Repr

/-- The fixed components pushed onto the home directory to locate the
configuration file (codex_cli.rs:47-49). -/
def configPathComponents : List String :=
  [".codex", "config.toml"]

/-- `State::authenticate` (codex_cli.rs:41-76). The file-system read and the
external TOML deserializer are passed in as `readResult` and `parseToml`
(`.error` when `toml::from_str` fails). Returns the result together with the
credential state after the call. -/
def State.authenticate (s : State) (readResult : ReadOutcome)
    (parseToml : String → Except Unit CodexConfig) :
    Except AuthError Unit × State :=
  if s.is_authenticated then
    (.ok (), s)
  else
    match readResult with
    | .notFound => (.error .credentialsNotFound, s)
    | .ioError => (.error .otherAuthError, s)
    | .contents c =>
      match parseToml c with
      | .error _ => (.error .otherAuthError, s)
      | .ok config =>
        match config.api_key with
        | none => (.error .credentialsNotFound, s)
        | some key => (.ok (), { api_key := some key })

/-- An auxiliary (MCP) server descriptor from the provider settings. -/
structure McpServer where
  command : String
  args : List String
  env : List (String × String)
deriving DecidableEq, Repr

/-- `CodexCliSettings`: binary path and the name→descriptor mapping of
auxiliary servers, in iteration order. -/
structure CodexCliSettings where
  binary_path : String
  mcp_servers : List (String × McpServer)
deriving DecidableEq, Repr

/-- Modelled from the spec: the external TOML library's rendering of a string
value (`toml::Value::String(s)` displayed), a quoted literal. The exact escape
table lives outside this repository; only the rendered string's role as an
opaque value matters to the claims below. -/
def tomlStringValue (s : String) : String :=
  "\"" ++ s ++ "\""

/-- Modelled from the spec: the argument list rendered as a list literal
(`toml::Value::Array` displayed). -/
def tomlArrayValue (xs : List String) : String :=
  "[" ++ String.intercalate ", " (xs.map tomlStringValue) ++ "]"

/-- Modelled from the spec: the environment mapping rendered as a key-value
table (`toml::Value::Table` displayed). -/
def tomlTableValue (kvs : List (String × String)) : String :=
  String.join (kvs.map (fun kv => kv.1 ++ " = " ++ tomlStringValue kv.2 ++ "\n"))

/-- A process invocation description: program, argument vector, extra
environment variables (in the order the code adds them). -/
structure Command where
  program : String
  args : List String
  env : List (String × String)
deriving DecidableEq, Repr

/-- The body of the `for (name, server) in &settings.mcp_servers` loop
(codex_cli.rs:238-266), acting on the accumulated argument vector. -/
def mcpServerFold (acc : List String) (p : String × McpServer) : List String :=
  let name := p.1
  let server := p.2
  let acc := acc ++
    ["--config", "mcp_servers." ++ name ++ ".command=" ++ tomlStringValue server.command]
  let acc :=
    if server.args.isEmpty then acc
    else acc ++
      ["--config", "mcp_servers." ++ name ++ ".args=" ++ tomlArrayValue server.args]
  if server.env.isEmpty then acc
  else acc ++
    ["--config", "mcp_servers." ++ name ++ ".env=" ++ tomlTableValue server.env]

/-- The overrides contributed by one auxiliary server, as the spec describes
them: the command override always, the argument-list override only when the
argument list is non-empty, the environment override only when the environment
mapping is non-empty. -/
def serverOverrides (name : String) (server : McpServer) : List String :=
  ["--config", "mcp_servers." ++ name ++ ".command=" ++ tomlStringValue server.command] ++
  (if server.args.isEmpty then [] else
    ["--config", "mcp_servers." ++ name ++ ".args=" ++ tomlArrayValue server.args]) ++
  (if server.env.isEmpty then [] else
    ["--config", "mcp_servers." ++ name ++ ".env=" ++ tomlTableValue server.env])

/-- The command construction of `stream_completion` (codex_cli.rs:236-267):
`new_smol_command(binary_path)`, then `exec --model <model>`, then per server a
`--config mcp_servers.<name>.command=<toml>` pair always, a
`--config mcp_servers.<name>.args=<toml>` pair only when the argument list is
non-empty, a `--config mcp_servers.<name>.env=<toml>` pair only when the
environment mapping is non-empty, and finally `CODEX_API_KEY` in the child's
environment. -/
def buildCommand (settings : CodexCliSettings) (model : String) (api_key : String) : Command :=
  { program := settings.binary_path
    args := settings.mcp_servers.foldl mcpServerFold ["exec", "--model", model]
    env := [("CODEX_API_KEY", api_key)] }

/-- `LanguageModelCompletionError` (the variants this provider produces). -/
inductive CompletionError where
  | noApiKey : CompletionError
  | otherCompletionError : CompletionError
  | apiReadResponseError (e : String) : CompletionError

/-- One poll of the buffered line reader over the child's stdout: a line
(paired with the outcome of the external JSON parse on it) or a read error. -/
abbrev ReadPoll := Except String (String × Option Json)

/-- The `stream::unfold` loop of `stream_completion` (codex_cli.rs:299-321),
as a function from the finite list of reader polls (ending at end-of-output)
to the list of emitted stream items: each `Ok` line becomes
`Ok(parse_line(line))`; the first read error becomes a terminal
`ApiReadResponseError` item (the `done` flag stops the stream, so later polls
never happen); end-of-output with no prior error becomes a terminal
`Ok(Stop(EndTurn))` item. -/
def decodeStream : List ReadPoll → List (Except CompletionError CompletionEvent)
  | [] => [.ok (.stop .endTurn)]
  | .ok lp :: rest => .ok (parse_line lp.1 lp.2) :: decodeStream rest
  | .error e :: _ => [.error (.apiReadResponseError e)]

/-- Everything `stream_completion` did by the time it returned: the result, the
credential state afterwards, the list of processes it spawned, and the bytes it
wrote to the child's stdin (none when it never reached a successful write). -/
structure StreamOutcome where
  result : Except CompletionError (List (Except CompletionError CompletionEvent))
  state : State
  spawned : List Command
  stdinWritten : Option String

/-- `stream_completion` (codex_cli.rs:204-326). External effects are passed in:
`spawnOk` is whether `cmd.spawn()` succeeds, `writeOk` whether the stdin write
succeeds, and `polls` the outcomes of reading the child's stdout. With no
stored key the function returns `NoApiKey` at once — before the async block
runs, so nothing is spawned, nothing is written and the state is untouched. -/
def stream_completion (state : State) (settings : CodexCliSettings) (model : String)
    (request : LanguageModelRequest) (spawnOk writeOk : Bool)
    (polls : List ReadPoll) : StreamOutcome :=
  match state.api_key with
  | none => ⟨.error .noApiKey, state, [], none⟩
  | some key =>
    let cmd := buildCommand settings model key
    if spawnOk then
      if writeOk then
        ⟨.ok (decodeStream polls), state, [cmd], some (serializePrompt request.messages)⟩
      else
        ⟨.error .otherCompletionError, state, [cmd], none⟩
    else
      ⟨.error .otherCompletionError, state, [], none⟩

/-- `LanguageModelToolChoice`. -/
inductive ToolChoice where
  | auto : ToolChoice
  | any : ToolChoice
  | choiceNone : ToolChoice
deriving DecidableEq, Repr

/-- `CodexCliLanguageModel::supports_images` (codex_cli.rs:180-182). -/
def supports_images : Bool := false

/-- `CodexCliLanguageModel::supports_tools` (codex_cli.rs:183-185). -/
def supports_tools : Bool := true

/-- `CodexCliLanguageModel::supports_tool_choice` (codex_cli.rs:186-191):
`matches!(choice, Auto | None)`. -/
def supports_tool_choice : ToolChoice → Bool
  | .auto => true
  | .choiceNone => true
  | .any => false

/-- `CodexCliLanguageModel::max_token_count` (codex_cli.rs:192-194). -/
def max_token_count : Nat := 0

/-- `CodexCliLanguageModel::count_tokens` (codex_cli.rs:196-202):
`async move { Ok(0) }`. -/
def count_tokens (_request : LanguageModelRequest) : Except Unit Nat :=
  .ok 0

lemma string_join_cons (a : String) (l : List String) :
    String.join (a :: l) = a ++ String.join l := by
  apply String.ext
  simp [String.join_eq, String.data_append]

/-- C1: the serialized prompt written to the child's stdin is, for every
request, the in-order concatenation over the request's messages of the role
marker (`"system:"`, `"user:"`, `"assistant:"`; the request's role type has no
tool variant, so the tool case is vacuous), a space, the message's flattened
textual content, and a newline. -/
theorem prompt_serialization :
    roleTag .system = "system:" ∧ roleTag .user = "user:" ∧
    roleTag .assistant = "assistant:" ∧
    ∀ messages : List Message,
      serializePrompt messages =
        messages.foldr (fun m acc => roleTag m.role ++ " " ++ m.contents ++ "\n" ++ acc) "" := by
  refine ⟨rfl, rfl, rfl, ?_⟩
  intro messages
  induction messages with
  | nil => rfl
  | cons m ms ih =>
      unfold serializePrompt at ih ⊢
      rw [List.map_cons, string_join_cons, ih, List.foldr_cons]

/-- C2: a streaming call made while the credential store holds no secret
returns `NoApiKey` without spawning any process, without writing to any child,
and with the credential state unchanged — whatever the settings, request or
external-world outcomes would have been. -/
theorem stream_completion_no_api_key (state : State) (settings : CodexCliSettings)
    (model : String) (request : LanguageModelRequest) (spawnOk writeOk : Bool)
    (polls : List ReadPoll) (h : state.api_key = none) :
    stream_completion state settings model request spawnOk writeOk polls =
      ⟨.error .noApiKey, state, [], none⟩ := by
  unfold stream_completion
  rw [h]

theorem stream_completion_no_api_key_witness :
    stream_completion ⟨none⟩ ⟨"codex", []⟩ "default" ⟨[]⟩ true true [] =
      ⟨.error .noApiKey, ⟨none⟩, [], none⟩ :=
  stream_completion_no_api_key ⟨none⟩ ⟨"codex", []⟩ "default" ⟨[]⟩ true true [] rfl

/-- C9: the capability queries are constant: `supports_images` is false,
`supports_tools` is true, `supports_tool_choice` is true exactly for the
`Auto` and `None` choice modes, `max_token_count` is zero and `count_tokens`
returns zero for every request. -/
theorem capability_queries :
    supports_images = false ∧
    supports_tools = true ∧
    (∀ c : ToolChoice, supports_tool_choice c = true ↔ (c = .auto ∨ c = .choiceNone)) ∧
    max_token_count = 0 ∧
    (∀ request : LanguageModelRequest, count_tokens request = .ok 0) := by
  refine ⟨rfl, rfl, ?_, rfl, fun _ => rfl⟩
  intro c
  cases c <;> simp [supports_tool_choice]

/-- C3: a line parsing to a record whose `type` is `"tool"` or `"tool_use"`,
with a string id, a string name (field `name`, else field `tool_name`), and an
`input` payload, decodes to a `ToolUse` event with that id, name and input,
with `raw_input` the record's `raw_input` string (empty if it yields none) and
`is_input_complete` the record's `is_input_complete` boolean (true if it
yields none). -/
theorem parse_line_tool_use (line t id nm : String) (value input : Json)
    (ht : (jsonGet value "type").bind asStr = some t)
    (htt : t = "tool" ∨ t = "tool_use")
    (hid : (jsonGet value "id").bind asStr = some id)
    (hnm : ((jsonGet value "name").orElse (fun _ => jsonGet value "tool_name")).bind asStr
            = some nm)
    (hin : jsonGet value "input" = some input) :
    parse_line line (some value) = .toolUse
      { id := id
        name := nm
        raw_input := ((jsonGet value "raw_input").bind asStr).getD ""
        input := input
        is_input_complete := ((jsonGet value "is_input_complete").bind asBool).getD true } := by
  rcases htt with rfl | rfl <;>
    simp [parse_line, toolUseEvent, ht, hid, hnm, hin]

theorem parse_line_tool_use_witness :
    parse_line "ln"
        (some (.obj [("type", .str "tool_use"), ("id", .str "t1"),
                     ("name", .str "run"), ("input", .obj [])])) =
      .toolUse { id := "t1", name := "run", raw_input := "", input := .obj [],
                 is_input_complete := true } :=
  parse_line_tool_use "ln" "tool_use" "t1" "run"
    (.obj [("type", .str "tool_use"), ("id", .str "t1"),
           ("name", .str "run"), ("input", .obj [])])
    (.obj []) rfl (Or.inr rfl) rfl rfl rfl

/-- C4: a line that is not a tool-use record decodes to `Text(content)` when
the record has a string `content` field, else to `Text(text)` when it has a
string `text` field, else — including lines that do not parse as JSON at
all — to `Text` of the raw line; the decoder never rejects a line. -/
theorem parse_line_text_fallback (line : String) :
    (∀ (value : Json) (s : String), toolUseEvent value = none →
        (jsonGet value "content").bind asStr = some s →
        parse_line line (some value) = .text s) ∧
    (∀ (value : Json) (s : String), toolUseEvent value = none →
        (jsonGet value "content").bind asStr = none →
        (jsonGet value "text").bind asStr = some s →
        parse_line line (some value) = .text s) ∧
    (∀ value : Json, toolUseEvent value = none →
        (jsonGet value "content").bind asStr = none →
        (jsonGet value "text").bind asStr = none →
        parse_line line (some value) = .text line) ∧
    parse_line line none = .text line := by
  refine ⟨?_, ?_, ?_, rfl⟩
  · intro value s htool hc
    simp [parse_line, htool, hc]
  · intro value s htool hc htx
    simp [parse_line, htool, hc, htx]
  · intro value htool hc htx
    simp [parse_line, htool, hc, htx]

theorem parse_line_text_fallback_witness :
    parse_line "raw" (some (.obj [("content", .str "hello")])) = .text "hello" ∧
    parse_line "raw2" (some (.obj [("text", .str "hi")])) = .text "hi" ∧
    parse_line "not json" none = .text "not json" :=
  ⟨(parse_line_text_fallback "raw").1 (.obj [("content", .str "hello")]) "hello" rfl rfl,
   (parse_line_text_fallback "raw2").2.1 (.obj [("text", .str "hi")]) "hi" rfl rfl rfl,
   (parse_line_text_fallback "not json").2.2.2⟩

lemma parse_line_text_of_no_tool (line : String) (value : Json)
    (h : toolUseEvent value = none) :
    ∃ s, parse_line line (some value) = .text s := by
  cases hc : (jsonGet value "content").bind asStr with
  | some s => exact ⟨s, by simp [parse_line, h, hc]⟩
  | none =>
    cases htx : (jsonGet value "text").bind asStr with
    | some s => exact ⟨s, by simp [parse_line, h, hc, htx]⟩
    | none => exact ⟨line, by simp [parse_line, h, hc, htx]⟩

/-- C10: mis-typed fields are skipped like absent ones and never make the
decoder fail: a non-string `content` falls through to the `text` rule and then
to the raw line; a non-string `text` (with no string `content`) yields the raw
line; a tool-typed record with a non-string `id` or a non-string `name` does
not produce a `ToolUse` and decodes by the text rules; inside a tool-use
record a non-string `raw_input` yields `""` and a non-boolean
`is_input_complete` yields `true`. -/
theorem parse_line_mistyped_fields (line : String) :
    (∀ (value j : Json), toolUseEvent value = none →
        jsonGet value "content" = some j → asStr j = none →
        ((∃ s, (jsonGet value "text").bind asStr = some s ∧
            parse_line line (some value) = .text s) ∨
         ((jsonGet value "text").bind asStr = none ∧
            parse_line line (some value) = .text line))) ∧
    (∀ (value j : Json), toolUseEvent value = none →
        (jsonGet value "content").bind asStr = none →
        jsonGet value "text" = some j → asStr j = none →
        parse_line line (some value) = .text line) ∧
    (∀ (value j : Json) (t : String), (jsonGet value "type").bind asStr = some t →
        (t = "tool" ∨ t = "tool_use") →
        jsonGet value "id" = some j → asStr j = none →
        toolUseEvent value = none ∧ ∃ s, parse_line line (some value) = .text s) ∧
    (∀ (value j : Json) (t : String), (jsonGet value "type").bind asStr = some t →
        (t = "tool" ∨ t = "tool_use") →
        jsonGet value "name" = some j → asStr j = none →
        toolUseEvent value = none ∧ ∃ s, parse_line line (some value) = .text s) ∧
    (∀ (value input jr jc : Json) (t id nm : String),
        (jsonGet value "type").bind asStr = some t → (t = "tool" ∨ t = "tool_use") →
        (jsonGet value "id").bind asStr = some id →
        ((jsonGet value "name").orElse (fun _ => jsonGet value "tool_name")).bind asStr
          = some nm →
        jsonGet value "input" = some input →
        jsonGet value "raw_input" = some jr → asStr jr = none →
        jsonGet value "is_input_complete" = some jc → asBool jc = none →
        parse_line line (some value) = .toolUse
          { id := id, name := nm, raw_input := "", input := input,
            is_input_complete := true }) := by
  refine ⟨?_, ?_, ?_, ?_, ?_⟩
  · intro value j htool hc hj
    have hcb : (jsonGet value "content").bind asStr = none := by rw [hc]; exact hj
    cases htx : (jsonGet value "text").bind asStr with
    | some s => left; exact ⟨s, rfl, by simp [parse_line, htool, hcb, htx]⟩
    | none => right; exact ⟨rfl, by simp [parse_line, htool, hcb, htx]⟩
  · intro value j htool hc htj hj
    have htb : (jsonGet value "text").bind asStr = none := by rw [htj]; exact hj
    simp [parse_line, htool, hc, htb]
  · intro value j t ht htt hid hj
    have hidb : (jsonGet value "id").bind asStr = none := by rw [hid]; exact hj
    have htool : toolUseEvent value = none := by
      rcases htt with rfl | rfl <;> simp [toolUseEvent, ht, hidb]
    exact ⟨htool, parse_line_text_of_no_tool line value htool⟩
  · intro value j t ht htt hnm hj
    have hnmb : ((jsonGet value "name").orElse (fun _ => jsonGet value "tool_name")).bind asStr
        = none := by
      rw [hnm]
      exact hj
    have htool : toolUseEvent value = none := by
      cases hidc : (jsonGet value "id").bind asStr <;>
        cases hinc : jsonGet value "input" <;>
          rcases htt with rfl | rfl <;>
            simp [toolUseEvent, ht, hnmb, hidc, hinc]
    exact ⟨htool, parse_line_text_of_no_tool line value htool⟩
  · intro value input jr jc t id nm ht htt hid hnm hin hjr hjrs hjc hjcb
    have hr : ((jsonGet value "raw_input").bind asStr).getD "" = "" := by
      rw [hjr]; simp [hjrs]
    have hcpl : ((jsonGet value "is_input_complete").bind asBool).getD true = true := by
      rw [hjc]; simp [hjcb]
    rcases htt with rfl | rfl <;>
      simp [parse_line, toolUseEvent, ht, hid, hnm, hin, hr, hcpl]

theorem parse_line_mistyped_fields_witness :
    parse_line "fallback" (some (.obj [("content", .num 3), ("text", .bool true)]))
      = .text "fallback" ∧
    (toolUseEvent (.obj [("type", .str "tool"), ("id", .num 7),
                         ("name", .str "run"), ("input", .obj [])]) = none ∧
     ∃ s, parse_line "toolish"
        (some (.obj [("type", .str "tool"), ("id", .num 7),
                     ("name", .str "run"), ("input", .obj [])]))
      = .text s) ∧
    parse_line "full"
        (some (.obj [("type", .str "tool"), ("id", .str "t2"), ("name", .str "go"),
                     ("input", .null), ("raw_input", .num 1),
                     ("is_input_complete", .str "yes")]))
      = .toolUse { id := "t2", name := "go", raw_input := "", input := .null,
                   is_input_complete := true } := by
  refine ⟨?_, ?_, ?_⟩
  · exact (parse_line_mistyped_fields "fallback").2.1
      (.obj [("content", .num 3), ("text", .bool true)]) (.bool true) rfl rfl rfl rfl
  · exact (parse_line_mistyped_fields "toolish").2.2.1
      (.obj [("type", .str "tool"), ("id", .num 7),
             ("name", .str "run"), ("input", .obj [])]) (.num 7) "tool"
      rfl (Or.inl rfl) rfl rfl
  · exact (parse_line_mistyped_fields "full").2.2.2.2
      (.obj [("type", .str "tool"), ("id", .str "t2"), ("name", .str "go"),
             ("input", .null), ("raw_input", .num 1),
             ("is_input_complete", .str "yes")])
      .null (.num 1) (.str "yes") "tool" "t2" "go"
      rfl (Or.inl rfl) rfl rfl rfl rfl rfl rfl rfl

/-- C5: the event sequence ends in exactly one of two ways and emits nothing
afterwards: with a read error, every successfully read line before it is still
delivered (as its decoded event) and the sequence ends on that single error
event, never reaching the polls behind it; with no read error, the sequence is
the decoded events of all lines followed by exactly one terminal
`Stop(EndTurn)`. -/
theorem stream_termination (polls : List ReadPoll) :
    (∃ pre : List (String × Option Json),
        polls = pre.map .ok ∧
        decodeStream polls =
          pre.map (fun lp => .ok (parse_line lp.1 lp.2)) ++ [.ok (.stop .endTurn)]) ∨
    (∃ (pre : List (String × Option Json)) (e : String) (rest : List ReadPoll),
        polls = pre.map .ok ++ .error e :: rest ∧
        decodeStream polls =
          pre.map (fun lp => .ok (parse_line lp.1 lp.2)) ++
            [.error (.apiReadResponseError e)]) := by
  induction polls with
  | nil => exact Or.inl ⟨[], rfl, rfl⟩
  | cons p rest ih =>
    cases p with
    | ok lp =>
      rcases ih with ⟨pre, h1, h2⟩ | ⟨pre, e, tail, h1, h2⟩
      · exact Or.inl ⟨lp :: pre, by rw [List.map_cons, h1], by
          rw [List.map_cons, List.cons_append]
          show Except.ok (parse_line lp.1 lp.2) :: decodeStream rest = _
          rw [h2]⟩
      · exact Or.inr ⟨lp :: pre, e, tail, by rw [List.map_cons, List.cons_append, h1], by
          rw [List.map_cons, List.cons_append]
          show Except.ok (parse_line lp.1 lp.2) :: decodeStream rest = _
          rw [h2]⟩
    | error e => exact Or.inr ⟨[], e, rest, rfl, rfl⟩

/-- C6: with no stored secret, `authenticate` reads `<home>/.codex/config.toml`
and fails — with `CredentialsNotFound` when the file is absent, with a generic
error when its contents do not parse, and with `CredentialsNotFound` when they
parse without an `api_key` — leaving the credential state unchanged in every
failure case. -/
theorem authenticate_failures (s : State)
    (parseToml : String → Except Unit CodexConfig) (h : s.api_key = none) :
    configPathComponents = [".codex", "config.toml"] ∧
    s.authenticate .notFound parseToml = (.error .credentialsNotFound, s) ∧
    (∀ c, parseToml c = .error () →
        s.authenticate (.contents c) parseToml = (.error .otherAuthError, s)) ∧
    (∀ c config, parseToml c = .ok config → config.api_key = none →
        s.authenticate (.contents c) parseToml = (.error .credentialsNotFound, s)) := by
  have hauth : s.is_authenticated = false := by
    simp [State.is_authenticated, h]
  refine ⟨rfl, ?_, ?_, ?_⟩
  · simp [State.authenticate, hauth]
  · intro c hc
    simp [State.authenticate, hauth, hc]
  · intro c config hc hk
    simp [State.authenticate, hauth, hc, hk]

theorem authenticate_failures_witness :
    State.authenticate ⟨none⟩ .notFound (fun _ => .error ())
        = (.error .credentialsNotFound, (⟨none⟩ : State)) ∧
    State.authenticate ⟨none⟩ (.contents "oops") (fun _ => .error ())
        = (.error .otherAuthError, (⟨none⟩ : State)) ∧
    State.authenticate ⟨none⟩ (.contents "empty") (fun _ => .ok ⟨none⟩)
        = (.error .credentialsNotFound, (⟨none⟩ : State)) :=
  ⟨(authenticate_failures ⟨none⟩ (fun _ => .error ()) rfl).2.1,
   (authenticate_failures ⟨none⟩ (fun _ => .error ()) rfl).2.2.1 "oops" rfl,
   (authenticate_failures ⟨none⟩ (fun _ => .ok ⟨none⟩) rfl).2.2.2 "empty" ⟨none⟩ rfl rfl⟩

/-- C7: `authenticate` is idempotent: with a secret already stored it returns
success immediately — for every possible file-system outcome and parser, so it
reads nothing — and leaves the state unchanged; consequently after any
successful call every subsequent call is a no-op success. -/
theorem authenticate_idempotent :
    (∀ (s : State) (key : String), s.api_key = some key →
        ∀ (readResult : ReadOutcome) (parseToml : String → Except Unit CodexConfig),
          s.authenticate readResult parseToml = (.ok (), s)) ∧
    (∀ (s s' : State) (r : ReadOutcome) (p : String → Except Unit CodexConfig),
        s.authenticate r p = (.ok (), s') →
        ∀ (r' : ReadOutcome) (p' : String → Except Unit CodexConfig),
          s'.authenticate r' p' = (.ok (), s')) := by
  constructor
  · intro s key hkey readResult parseToml
    have hauth : s.is_authenticated = true := by
      simp [State.is_authenticated, hkey]
    simp [State.authenticate, hauth]
  · intro s s' r p hcall r' p'
    have hkey : s'.api_key.isSome = true := by
      unfold State.authenticate at hcall
      by_cases hauth : s.is_authenticated = true
      · rw [if_pos hauth] at hcall
        have h2 : s = s' := congrArg Prod.snd hcall
        rw [← h2]
        exact hauth
      · rw [if_neg hauth] at hcall
        split at hcall
        · simp at hcall
        · simp at hcall
        · split at hcall
          · simp at hcall
          · split at hcall
            · simp at hcall
            · have h2 : State.mk (some _) = s' := congrArg Prod.snd hcall
              rw [← h2]
              rfl
    have hauth' : s'.is_authenticated = true := hkey
    simp [State.authenticate, hauth']

theorem authenticate_idempotent_witness :
    State.authenticate ⟨some "k"⟩ .notFound (fun _ => .error ())
        = (.ok (), (⟨some "k"⟩ : State)) ∧
    State.authenticate ⟨some "k"⟩ .ioError (fun _ => .error ())
        = (.ok (), (⟨some "k"⟩ : State)) :=
  ⟨(authenticate_idempotent.1 ⟨some "k"⟩ "k" rfl .notFound (fun _ => .error ())),
   (authenticate_idempotent.2 ⟨some "k"⟩ ⟨some "k"⟩ .notFound (fun _ => .error ())
      (authenticate_idempotent.1 ⟨some "k"⟩ "k" rfl .notFound (fun _ => .error ()))
      .ioError (fun _ => .error ()))⟩

lemma mcpServerFold_eq_append (acc : List String) (p : String × McpServer) :
    mcpServerFold acc p = acc ++ serverOverrides p.1 p.2 := by
  unfold mcpServerFold serverOverrides
  by_cases ha : p.2.args.isEmpty <;> by_cases he : p.2.env.isEmpty <;>
    simp [ha, he]

lemma foldl_mcpServerFold (servers : List (String × McpServer)) (init : List String) :
    servers.foldl mcpServerFold init =
      init ++ (servers.map (fun p => serverOverrides p.1 p.2)).flatten := by
  induction servers generalizing init with
  | nil => simp
  | cons p rest ih =>
    rw [List.foldl_cons, ih, mcpServerFold_eq_append]
    simp

/-- C8: the constructed invocation runs `settings.binary_path` with the fixed
`exec` subcommand and `--model <model>`; then, for each auxiliary server in
order, a `--config` override for the server's command always, one for its
argument list only if non-empty, and one for its environment mapping only if
non-empty; and it sets the secret as the single environment variable
`CODEX_API_KEY` on the child. -/
theorem build_command_spec (settings : CodexCliSettings) (model api_key : String) :
    (buildCommand settings model api_key).program = settings.binary_path ∧
    (buildCommand settings model api_key).args =
      ["exec", "--model", model] ++
        (settings.mcp_servers.map (fun p => serverOverrides p.1 p.2)).flatten ∧
    (buildCommand settings model api_key).env = [("CODEX_API_KEY", api_key)] :=
  ⟨rfl, foldl_mcpServerFold settings.mcp_servers ["exec", "--model", model], rfl⟩

end CodexCli
